import Mathlib

/-!
Verification of the BLS signature core (`rust-impl/src/signature.rs`) of the
`bls_sigs_ref` library.

The elliptic-curve arithmetic backend (groups `G1`/`G2`, scalar field `Fr`,
target group `Fq12`, Miller loop, final exponentiation), the hash-to-curve
primitive, HKDF-based scalar derivation and compressed point serialization are
external collaborators of the repository; they are modelled abstractly by a
`Backend` record whose algebraic guarantees are collected in `LawfulBackend`.
The functions of `signature.rs` themselves are translated directly:

* the trait `BLSSigCore` becomes the record `BLSSigCore` (its associated type
  `PKType` becomes the parameter `PK`);
* its two impls (`impl BLSSigCore for G1`, sig-in-G1, and
  `impl BLSSigCore for G2`, sig-in-G2) become `SigG1.core` and `SigG2.core`;
* the provided trait methods (`aggregate`, `BLSSignatureBasic::aggregate_verify`,
  `BLSSignatureAug::verify`, `BLSSignaturePop::multisig_verify`) become
  functions taking the record as an argument, mirroring Rust's default methods;
* byte strings are `List Nat`, the ciphersuite byte a `Nat` (no arithmetic is
  performed on either).

A small executable instance (`toyBackend`, over `ZMod 5`) discharges the
lawfulness hypotheses at concrete inputs.
-/

namespace BLSSigs

/-- Byte strings (Rust `&[u8]` / `Vec<u8>`) are modelled as lists of naturals. -/
abbrev Bytes := List Nat

/-- The external pairing backend used by `signature.rs`: generators, the
hash-to-curve primitive, the Miller loop and final exponentiation, the scalar
derivation `xprime_from_sk` (HKDF-SHA256 + `from_okm`), and compressed point
serialization.  `ML` is the type of Miller-loop outputs (pre final
exponentiation); `pairing` is the mathematical pairing the Miller loop and
final exponentiation jointly compute. -/
structure Backend (Fr G1 G2 GT ML : Type) where
  g1_one : G1
  g2_one : G2
  hash_g1 : Bytes → Nat → G1
  hash_g2 : Bytes → Nat → G2
  pairing : G1 → G2 → GT
  miller_loop : List (G1 × G2) → ML
  final_exponentiation : ML → Option GT
  xprime_from_sk : Bytes → Fr
  serialize_g1 : G1 → Bytes
  serialize_g2 : G2 → Bytes

section Core

variable {Fr G1 G2 GT ML PK Sig : Type}

/-- Rust `_agg_help`: start from the group identity and `add_assign` each
element of the slice in order. -/
def _agg_help [AddCommGroup T] (ins : List T) : T :=
  ins.foldl (fun ret inv => ret + inv) 0

theorem foldl_add_eq_add_sum [AddCommGroup T] (l : List T) :
    ∀ a : T, l.foldl (fun ret inv => ret + inv) a = a + l.sum := by
  induction l with
  | nil => simp
  | cons x l ih => intro a; simp [ih, add_assoc]

/-- `_agg_help` computes the group sum of the slice. -/
theorem _agg_help_eq_sum [AddCommGroup T] (ins : List T) :
    _agg_help ins = ins.sum := by
  rw [_agg_help, foldl_add_eq_add_sum, zero_add]

/-- The trait `BLSSigCore`: required methods of each configuration.  `PK` is
the associated type `PKType`; `Sig` is `Self`. -/
structure BLSSigCore (Fr PK Sig : Type) where
  keygen : Bytes → Fr × PK
  core_sign : Fr → Bytes → Nat → Sig
  core_verify : PK → Sig → Bytes → Nat → Bool
  core_aggregate_verify : List PK → List Bytes → Sig → Nat → Bool

/-- Provided method `BLSSigCore::aggregate`: `_agg_help(sigs)`. -/
def BLSSigCore.aggregate [AddCommGroup Sig] (_C : BLSSigCore Fr PK Sig)
    (sigs : List Sig) : Sig :=
  _agg_help sigs

/-- `BLSSignatureBasic::aggregate_verify`: insert every message into a hash
set; if the set has fewer elements than the list (a duplicate exists) return
`false`, otherwise call `core_aggregate_verify`.  The number of distinct
elements of the slice is `msgs.dedup.length`. -/
def BLSSignatureBasic.aggregate_verify (C : BLSSigCore Fr PK Sig)
    (pks : List PK) (msgs : List Bytes) (sig : Sig) (ciphersuite : Nat) : Bool :=
  if msgs.dedup.length ≠ msgs.length then false
  else C.core_aggregate_verify pks msgs sig ciphersuite

/-- The blanket impl of `BLSSignatureAug::pk_bytes` for `PKType : SerDes`:
serialize the public key in compressed form (the `size_hint` argument only
sizes the buffer). -/
def BLSSignatureAug.pk_bytes (ser : PK → Bytes) (pk : PK) (_size_hint : Nat) :
    Bytes :=
  ser pk

/-- `BLSSignatureAug::verify`: prepend `pk_bytes(pk, msg.len())` to the
message, then call `core_verify`. -/
def BLSSignatureAug.verify (C : BLSSigCore Fr PK Sig) (pkb : PK → Nat → Bytes)
    (pk : PK) (sig : Sig) (msg : Bytes) (ciphersuite : Nat) : Bool :=
  C.core_verify pk sig (pkb pk msg.length ++ msg) ciphersuite

/-- `BLSSignaturePop::multisig_verify`: sum the public keys with `_agg_help`
and call `core_verify` on the sum. -/
def BLSSignaturePop.multisig_verify [AddCommGroup PK] (C : BLSSigCore Fr PK Sig)
    (pks : List PK) (sig : Sig) (msg : Bytes) (ciphersuite : Nat) : Bool :=
  C.core_verify (_agg_help pks) sig msg ciphersuite

/-- The accept test shared by all four verify paths of `signature.rs`:
`final_exponentiation(miller_loop(pairs))`, returning `false` on `None` and
comparing with `Fq12::one()` on `Some`. -/
def fe_check [CommGroup GT] [DecidableEq GT] (B : Backend Fr G1 G2 GT ML)
    (pairs : List (G1 × G2)) : Bool :=
  match B.final_exponentiation (B.miller_loop pairs) with
  | none => false
  | some pairingproduct => decide (pairingproduct = 1)

end Core

namespace SigG1

variable {Fr G1 G2 GT ML : Type}
variable [AddCommGroup G1] [AddCommGroup G2] [SMul Fr G1] [SMul Fr G2]
variable [CommGroup GT] [DecidableEq GT]

/-- `impl BLSSigCore for G1` (sig-in-G1, public keys in G2), translated method
by method from `signature.rs`. -/
def core (B : Backend Fr G1 G2 GT ML) : BLSSigCore Fr G2 G1 where
  keygen sk :=
    let x_prime := B.xprime_from_sk sk
    (x_prime, x_prime • B.g2_one)
  core_sign x_prime msg ciphersuite := x_prime • B.hash_g1 msg ciphersuite
  core_verify pk sig msg ciphersuite :=
    fe_check B [(B.hash_g1 msg ciphersuite, pk), (sig, -B.g2_one)]
  core_aggregate_verify pks msgs sig ciphersuite :=
    let pvec := msgs.map (fun msg => B.hash_g1 msg ciphersuite) ++ [sig]
    let qvec := pks ++ [-B.g2_one]
    fe_check B (pvec.zip qvec)

/-- `BLSSignaturePop::pop_prove` for `G1`: keygen from `sk`, serialize the
public key (96 compressed bytes, G2), and `core_sign` those bytes. -/
def pop_prove (B : Backend Fr G1 G2 GT ML) (sk : Bytes) (ciphersuite : Nat) :
    G1 :=
  let kp := (core B).keygen sk
  (core B).core_sign kp.1 (B.serialize_g2 kp.2) ciphersuite

/-- `BLSSignaturePop::pop_verify` for `G1`: serialize the public key and
`core_verify` those bytes. -/
def pop_verify (B : Backend Fr G1 G2 GT ML) (pk : G2) (sig : G1)
    (ciphersuite : Nat) : Bool :=
  (core B).core_verify pk sig (B.serialize_g2 pk) ciphersuite

end SigG1

namespace SigG2

variable {Fr G1 G2 GT ML : Type}
variable [AddCommGroup G1] [AddCommGroup G2] [SMul Fr G1] [SMul Fr G2]
variable [CommGroup GT] [DecidableEq GT]

/-- `impl BLSSigCore for G2` (sig-in-G2, public keys in G1), translated method
by method from `signature.rs`. -/
def core (B : Backend Fr G1 G2 GT ML) : BLSSigCore Fr G1 G2 where
  keygen sk :=
    let x_prime := B.xprime_from_sk sk
    (x_prime, x_prime • B.g1_one)
  core_sign x_prime msg ciphersuite := x_prime • B.hash_g2 msg ciphersuite
  core_verify pk sig msg ciphersuite :=
    fe_check B [(pk, B.hash_g2 msg ciphersuite), (-B.g1_one, sig)]
  core_aggregate_verify pks msgs sig ciphersuite :=
    let pvec := pks ++ [-B.g1_one]
    let qvec := msgs.map (fun msg => B.hash_g2 msg ciphersuite) ++ [sig]
    fe_check B (pvec.zip qvec)

/-- `BLSSignaturePop::pop_prove` for `G2`: keygen from `sk`, serialize the
public key (48 compressed bytes, G1), and `core_sign` those bytes. -/
def pop_prove (B : Backend Fr G1 G2 GT ML) (sk : Bytes) (ciphersuite : Nat) :
    G2 :=
  let kp := (core B).keygen sk
  (core B).core_sign kp.1 (B.serialize_g1 kp.2) ciphersuite

/-- `BLSSignaturePop::pop_verify` for `G2`: serialize the public key and
`core_verify` those bytes. -/
def pop_verify (B : Backend Fr G1 G2 GT ML) (pk : G1) (sig : G2)
    (ciphersuite : Nat) : Bool :=
  (core B).core_verify pk sig (B.serialize_g1 pk) ciphersuite

end SigG2

section Lawful

variable {Fr G1 G2 GT ML : Type}
variable [AddCommGroup G1] [AddCommGroup G2] [SMul Fr G1] [SMul Fr G2]
variable [CommGroup GT] [DecidableEq GT]

/-- Guarantees of the external pairing backend, as assumed by `signature.rs`
and stated in the spec: the Miller loop followed by final exponentiation
computes the product of pairings of the input pairs, the pairing is bilinear
and compatible with the common scalar action, and compressed serialization
has the standard BLS12-381 sizes. -/
structure LawfulBackend (B : Backend Fr G1 G2 GT ML) : Prop where
  ml_fe : ∀ pairs : List (G1 × G2),
    B.final_exponentiation (B.miller_loop pairs) =
      some ((pairs.map fun pq => B.pairing pq.1 pq.2).prod)
  pairing_add_left : ∀ p p' : G1, ∀ q : G2,
    B.pairing (p + p') q = B.pairing p q * B.pairing p' q
  pairing_add_right : ∀ p : G1, ∀ q q' : G2,
    B.pairing p (q + q') = B.pairing p q * B.pairing p q'
  pairing_smul : ∀ (a : Fr) (p : G1) (q : G2),
    B.pairing (a • p) q = B.pairing p (a • q)
  serialize_g1_length : ∀ p : G1, (B.serialize_g1 p).length = 48
  serialize_g2_length : ∀ q : G2, (B.serialize_g2 q).length = 96

namespace LawfulBackend

variable {B : Backend Fr G1 G2 GT ML}

theorem pairing_zero_left (hB : LawfulBackend B) (q : G2) : B.pairing 0 q = 1 := by
  have h := hB.pairing_add_left 0 0 q
  rw [add_zero] at h
  exact self_eq_mul_right.mp h

theorem pairing_zero_right (hB : LawfulBackend B) (p : G1) : B.pairing p 0 = 1 := by
  have h := hB.pairing_add_right p 0 0
  rw [add_zero] at h
  exact self_eq_mul_right.mp h

theorem pairing_neg_left (hB : LawfulBackend B) (p : G1) (q : G2) :
    B.pairing (-p) q = (B.pairing p q)⁻¹ := by
  have h := hB.pairing_add_left p (-p) q
  rw [add_neg_cancel, hB.pairing_zero_left] at h
  exact (inv_eq_of_mul_eq_one_right h.symm).symm

theorem pairing_neg_right (hB : LawfulBackend B) (p : G1) (q : G2) :
    B.pairing p (-q) = (B.pairing p q)⁻¹ := by
  have h := hB.pairing_add_right p q (-q)
  rw [add_neg_cancel, hB.pairing_zero_right] at h
  exact (inv_eq_of_mul_eq_one_right h.symm).symm

theorem pairing_sum_left (hB : LawfulBackend B) (l : List G1) (q : G2) :
    B.pairing l.sum q = (l.map fun p => B.pairing p q).prod := by
  induction l with
  | nil => simpa using hB.pairing_zero_left q
  | cons p l ih => simp [hB.pairing_add_left, ih]

/-- With a lawful backend, `fe_check` accepts exactly when the product of the
pairings of the supplied pairs is `1`. -/
theorem fe_check_true_iff (hB : LawfulBackend B) (pairs : List (G1 × G2)) :
    fe_check B pairs = true ↔
      (pairs.map fun pq => B.pairing pq.1 pq.2).prod = 1 := by
  simp [fe_check, hB.ml_fe]

end LawfulBackend

theorem pairing_sum_right {B : Backend Fr G1 G2 GT ML} (hB : LawfulBackend B)
    (p : G1) (l : List G2) :
    B.pairing p l.sum = (l.map fun q => B.pairing p q).prod := by
  induction l with
  | nil => simpa using hB.pairing_zero_right p
  | cons q l ih => simp [hB.pairing_add_right, ih]

/-- `fe_check` accepts exactly when final exponentiation of the Miller loop
output is `Some(1)`; in particular it rejects when it is `None`. -/
theorem fe_check_eq_true_iff_some_one [CommGroup GT] [DecidableEq GT]
    {B : Backend Fr G1 G2 GT ML} (pairs : List (G1 × G2)) :
    fe_check B pairs = true ↔
      B.final_exponentiation (B.miller_loop pairs) = some 1 := by
  unfold fe_check
  cases h : B.final_exponentiation (B.miller_loop pairs) <;> simp

/-- Unfolding of sig-in-G1 `core_aggregate_verify` to the shared accept test
on the zipped pair lists. -/
theorem core_aggregate_verify_g1_eq {B : Backend Fr G1 G2 GT ML}
    (pks : List G2) (msgs : List Bytes) (sig : G1) (ciphersuite : Nat) :
    (SigG1.core B).core_aggregate_verify pks msgs sig ciphersuite =
      fe_check B (((msgs.map fun msg => B.hash_g1 msg ciphersuite) ++ [sig]).zip
        (pks ++ [-B.g2_one])) :=
  rfl

/-- Unfolding of sig-in-G2 `core_aggregate_verify` to the shared accept test
on the zipped pair lists. -/
theorem core_aggregate_verify_g2_eq {B : Backend Fr G1 G2 GT ML}
    (pks : List G1) (msgs : List Bytes) (sig : G2) (ciphersuite : Nat) :
    (SigG2.core B).core_aggregate_verify pks msgs sig ciphersuite =
      fe_check B ((pks ++ [-B.g1_one]).zip
        ((msgs.map fun msg => B.hash_g2 msg ciphersuite) ++ [sig])) :=
  rfl

theorem keygen_g1_fst {B : Backend Fr G1 G2 GT ML} (sk : Bytes) :
    ((SigG1.core B).keygen sk).1 = B.xprime_from_sk sk := rfl

theorem keygen_g1_snd {B : Backend Fr G1 G2 GT ML} (sk : Bytes) :
    ((SigG1.core B).keygen sk).2 = B.xprime_from_sk sk • B.g2_one := rfl

theorem core_sign_g1_eq {B : Backend Fr G1 G2 GT ML} (x_prime : Fr)
    (msg : Bytes) (ciphersuite : Nat) :
    (SigG1.core B).core_sign x_prime msg ciphersuite =
      x_prime • B.hash_g1 msg ciphersuite := rfl

theorem keygen_g2_fst {B : Backend Fr G1 G2 GT ML} (sk : Bytes) :
    ((SigG2.core B).keygen sk).1 = B.xprime_from_sk sk := rfl

theorem keygen_g2_snd {B : Backend Fr G1 G2 GT ML} (sk : Bytes) :
    ((SigG2.core B).keygen sk).2 = B.xprime_from_sk sk • B.g1_one := rfl

theorem core_sign_g2_eq {B : Backend Fr G1 G2 GT ML} (x_prime : Fr)
    (msg : Bytes) (ciphersuite : Nat) :
    (SigG2.core B).core_sign x_prime msg ciphersuite =
      x_prime • B.hash_g2 msg ciphersuite := rfl

theorem zip_map_append_singleton {α β γ : Type} (f : α → β) (g : α → γ)
    (b : β) (c : γ) (l : List α) :
    ((l.map f) ++ [b]).zip ((l.map g) ++ [c]) =
      (l.map fun a => (f a, g a)) ++ [(b, c)] := by
  induction l with
  | nil => rfl
  | cons x l ih => simp [ih]

/-- Sign/verify correctness of the sig-in-G1 configuration, stated for any
public key of the form `x • g2` (the shape `keygen` produces). -/
theorem core_verify_core_sign_g1 {B : Backend Fr G1 G2 GT ML}
    (hB : LawfulBackend B) (x_prime : Fr) (msg : Bytes) (ciphersuite : Nat) :
    (SigG1.core B).core_verify (x_prime • B.g2_one)
      ((SigG1.core B).core_sign x_prime msg ciphersuite) msg ciphersuite = true := by
  rw [show (SigG1.core B).core_verify (x_prime • B.g2_one)
        ((SigG1.core B).core_sign x_prime msg ciphersuite) msg ciphersuite =
      fe_check B [(B.hash_g1 msg ciphersuite, x_prime • B.g2_one),
        (x_prime • B.hash_g1 msg ciphersuite, -B.g2_one)] from rfl,
    hB.fe_check_true_iff]
  simp only [List.map_cons, List.map_nil, List.prod_cons, List.prod_nil]
  rw [hB.pairing_neg_right, ← hB.pairing_smul]
  group

/-- Sign/verify correctness of the sig-in-G2 configuration, stated for any
public key of the form `x • g1`. -/
theorem core_verify_core_sign_g2 {B : Backend Fr G1 G2 GT ML}
    (hB : LawfulBackend B) (x_prime : Fr) (msg : Bytes) (ciphersuite : Nat) :
    (SigG2.core B).core_verify (x_prime • B.g1_one)
      ((SigG2.core B).core_sign x_prime msg ciphersuite) msg ciphersuite = true := by
  rw [show (SigG2.core B).core_verify (x_prime • B.g1_one)
        ((SigG2.core B).core_sign x_prime msg ciphersuite) msg ciphersuite =
      fe_check B [(x_prime • B.g1_one, B.hash_g2 msg ciphersuite),
        (-B.g1_one, x_prime • B.hash_g2 msg ciphersuite)] from rfl,
    hB.fe_check_true_iff]
  simp only [List.map_cons, List.map_nil, List.prod_cons, List.prod_nil]
  rw [hB.pairing_neg_left, hB.pairing_smul]
  group

/-- Aggregate correctness of the sig-in-G1 configuration: pairs of
(ikm, message) give independently generated keys whose signatures aggregate
to a signature accepted by `core_aggregate_verify`. -/
theorem aggregate_correct_g1 {B : Backend Fr G1 G2 GT ML}
    (hB : LawfulBackend B) (ins : List (Bytes × Bytes)) (ciphersuite : Nat) :
    (SigG1.core B).core_aggregate_verify
      (ins.map fun p => ((SigG1.core B).keygen p.1).2)
      (ins.map fun p => p.2)
      ((SigG1.core B).aggregate (ins.map fun p =>
        (SigG1.core B).core_sign ((SigG1.core B).keygen p.1).1 p.2 ciphersuite))
      ciphersuite = true := by
  rw [core_aggregate_verify_g1_eq, hB.fe_check_true_iff]
  simp only [keygen_g1_fst, keygen_g1_snd, core_sign_g1_eq,
    BLSSigCore.aggregate, List.map_map]
  rw [zip_map_append_singleton]
  simp only [List.map_append, List.map_cons, List.map_nil, List.prod_append,
    List.prod_cons, List.prod_nil, mul_one, Function.comp]
  rw [_agg_help_eq_sum, hB.pairing_neg_right, hB.pairing_sum_left,
    List.map_map]
  simp only [List.map_map, Function.comp_def]
  simp only [hB.pairing_smul]
  exact mul_inv_cancel _

/-- Aggregate correctness of the sig-in-G2 configuration. -/
theorem aggregate_correct_g2 {B : Backend Fr G1 G2 GT ML}
    (hB : LawfulBackend B) (ins : List (Bytes × Bytes)) (ciphersuite : Nat) :
    (SigG2.core B).core_aggregate_verify
      (ins.map fun p => ((SigG2.core B).keygen p.1).2)
      (ins.map fun p => p.2)
      ((SigG2.core B).aggregate (ins.map fun p =>
        (SigG2.core B).core_sign ((SigG2.core B).keygen p.1).1 p.2 ciphersuite))
      ciphersuite = true := by
  rw [core_aggregate_verify_g2_eq, hB.fe_check_true_iff]
  simp only [keygen_g2_fst, keygen_g2_snd, core_sign_g2_eq,
    BLSSigCore.aggregate, List.map_map]
  rw [zip_map_append_singleton]
  simp only [List.map_append, List.map_cons, List.map_nil, List.prod_append,
    List.prod_cons, List.prod_nil, mul_one, Function.comp]
  rw [_agg_help_eq_sum, hB.pairing_neg_left, pairing_sum_right hB,
    List.map_map]
  simp only [List.map_map, Function.comp_def]
  simp only [hB.pairing_smul]
  exact mul_inv_cancel _

end Lawful

section Toy

/-- A small executable backend over `ZMod 5` used to instantiate the abstract
theorems at concrete inputs: both groups are `ZMod 5` additively, the target
group is `Multiplicative (ZMod 5)`, and the pairing is multiplication in the
exponent. -/
def toyBackend :
    Backend (ZMod 5) (ZMod 5) (ZMod 5) (Multiplicative (ZMod 5))
      (Multiplicative (ZMod 5)) where
  g1_one := 1
  g2_one := 1
  hash_g1 msg ciphersuite := ((msg.sum + ciphersuite : Nat) : ZMod 5)
  hash_g2 msg ciphersuite := ((msg.sum + 2 * ciphersuite : Nat) : ZMod 5)
  pairing p q := Multiplicative.ofAdd (p * q)
  miller_loop pairs :=
    (pairs.map fun pq => Multiplicative.ofAdd (pq.1 * pq.2)).prod
  final_exponentiation x := some x
  xprime_from_sk sk := ((sk.sum : Nat) : ZMod 5)
  serialize_g1 p := List.replicate 48 p.val
  serialize_g2 q := List.replicate 96 q.val

theorem toyBackend_lawful : LawfulBackend toyBackend where
  ml_fe pairs := rfl
  pairing_add_left p p' q := by
    show Multiplicative.ofAdd ((p + p') * q) = _
    rw [add_mul, ofAdd_add]
    rfl
  pairing_add_right p q q' := by
    show Multiplicative.ofAdd (p * (q + q')) = _
    rw [mul_add, ofAdd_add]
    rfl
  pairing_smul a p q := by
    show Multiplicative.ofAdd (a * p * q) = Multiplicative.ofAdd (p * (a * q))
    ring_nf
  serialize_g1_length p := List.length_replicate 48 p.val
  serialize_g2_length q := List.length_replicate 96 q.val

end Toy

section Claims

variable {Fr G1 G2 GT ML PK Sig : Type}
variable [AddCommGroup G1] [AddCommGroup G2] [SMul Fr G1] [SMul Fr G2]
variable [CommGroup GT] [DecidableEq GT]

/-- Claim C2: for every pk, sig, msg and ciphersuite byte, `core_verify`
computes a single Miller loop over exactly the two pairs
`(HashToCurve(msg, cs), pk)` and `(sig, -G)` in the sig-in-G1 configuration,
and `(pk, HashToCurve(msg, cs))` and `(-G, sig)` in the sig-in-G2
configuration, followed by one final exponentiation, and returns `true` iff
that final exponentiation yields `Some(1)` (hence `false` when it yields no
result). -/
theorem claim_C2_verify_pairing_structure (B : Backend Fr G1 G2 GT ML)
    (pk : G2) (sig : G1) (pk' : G1) (sig' : G2) (msg : Bytes)
    (ciphersuite : Nat) :
    ((SigG1.core B).core_verify pk sig msg ciphersuite = true ↔
       B.final_exponentiation (B.miller_loop
         [(B.hash_g1 msg ciphersuite, pk), (sig, -B.g2_one)]) = some 1)
    ∧ ((SigG2.core B).core_verify pk' sig' msg ciphersuite = true ↔
       B.final_exponentiation (B.miller_loop
         [(pk', B.hash_g2 msg ciphersuite), (-B.g1_one, sig')]) = some 1) :=
  ⟨fe_check_eq_true_iff_some_one _, fe_check_eq_true_iff_some_one _⟩

/-- Claim C4: if two messages at distinct positions have equal byte content,
the basic variant's `aggregate_verify` returns `false`, for every core
implementation `C` (hence regardless of whether the signature is algebraically
valid and without the verdict of `core_aggregate_verify` being consulted). -/
theorem claim_C4_basic_duplicate_reject (C : BLSSigCore Fr PK Sig)
    (pks : List PK) (msgs : List Bytes) (sig : Sig) (ciphersuite : Nat)
    (i j : Fin msgs.length) (hij : i ≠ j) (heq : msgs.get i = msgs.get j) :
    BLSSignatureBasic.aggregate_verify C pks msgs sig ciphersuite = false := by
  have hnd : ¬ msgs.Nodup := fun hnd =>
    hij (List.nodup_iff_injective_get.mp hnd heq)
  have hlen : msgs.dedup.length ≠ msgs.length := by
    intro hlen
    have hdd : msgs.dedup = msgs := (List.dedup_sublist msgs).eq_of_length hlen
    exact hnd (hdd ▸ msgs.nodup_dedup)
  simp [BLSSignatureBasic.aggregate_verify, hlen]

theorem claim_C4_witness :
    BLSSignatureBasic.aggregate_verify (SigG1.core toyBackend)
      ([] : List (ZMod 5)) [[0], [0]] (0 : ZMod 5) 0 = false :=
  claim_C4_basic_duplicate_reject (SigG1.core toyBackend) [] [[0], [0]] 0 0
    ⟨0, by decide⟩ ⟨1, by decide⟩ (by decide) (by decide)

/-- Claim C5: `aggregate` returns the group sum of the signatures (the fold of
group addition starting from the identity); the empty slice yields the
identity, and any permutation of the input yields the same result. -/
theorem claim_C5_aggregate_is_sum [AddCommGroup Sig] (C : BLSSigCore Fr PK Sig)
    (sigs sigs' : List Sig) (hperm : sigs.Perm sigs') :
    C.aggregate sigs = sigs.sum ∧ C.aggregate ([] : List Sig) = 0 ∧
      C.aggregate sigs = C.aggregate sigs' := by
  refine ⟨_agg_help_eq_sum sigs, rfl, ?_⟩
  rw [BLSSigCore.aggregate, BLSSigCore.aggregate, _agg_help_eq_sum,
    _agg_help_eq_sum]
  exact hperm.sum_eq

theorem claim_C5_witness :
    (SigG1.core toyBackend).aggregate [1, 2] = ([1, 2] : List (ZMod 5)).sum ∧
      (SigG1.core toyBackend).aggregate ([] : List (ZMod 5)) = 0 ∧
      (SigG1.core toyBackend).aggregate [1, 2] =
        (SigG1.core toyBackend).aggregate [2, 1] :=
  claim_C5_aggregate_is_sum (SigG1.core toyBackend) [1, 2] [2, 1] (by decide)

/-- Claim C6: the message-augmentation variant's `verify` equals `core_verify`
on the compressed serialization of the public key prepended to the message, in
both configurations. -/
theorem claim_C6_aug_framing (B : Backend Fr G1 G2 GT ML) (pk : G2) (sig : G1)
    (pk' : G1) (sig' : G2) (msg : Bytes) (ciphersuite : Nat) :
    (BLSSignatureAug.verify (SigG1.core B)
        (BLSSignatureAug.pk_bytes B.serialize_g2) pk sig msg ciphersuite =
      (SigG1.core B).core_verify pk sig (B.serialize_g2 pk ++ msg) ciphersuite)
    ∧ (BLSSignatureAug.verify (SigG2.core B)
        (BLSSignatureAug.pk_bytes B.serialize_g1) pk' sig' msg ciphersuite =
      (SigG2.core B).core_verify pk' sig' (B.serialize_g1 pk' ++ msg)
        ciphersuite) :=
  ⟨rfl, rfl⟩

/-- Claim C7: `multisig_verify` equals `core_verify` on the group sum of the
public keys, for every core implementation. -/
theorem claim_C7_multisig_is_core_on_sum [AddCommGroup PK]
    (C : BLSSigCore Fr PK Sig) (pks : List PK) (sig : Sig) (msg : Bytes)
    (ciphersuite : Nat) :
    BLSSignaturePop.multisig_verify C pks sig msg ciphersuite =
      C.core_verify pks.sum sig msg ciphersuite := by
  rw [BLSSignaturePop.multisig_verify, _agg_help_eq_sum]

/-- Claim C10: `multisig_verify` on the empty list of public keys equals
`core_verify` with the identity element of the public-key group as the public
key. -/
theorem claim_C10_multisig_empty [AddCommGroup PK] (C : BLSSigCore Fr PK Sig)
    (sig : Sig) (msg : Bytes) (ciphersuite : Nat) :
    BLSSignaturePop.multisig_verify C ([] : List PK) sig msg ciphersuite =
      C.core_verify 0 sig msg ciphersuite :=
  rfl

/-- Claim C9: when `len(pks) ≠ len(msgs)`, `core_aggregate_verify` in either
configuration is still a total Boolean computation: it equals the shared
accept test applied to the zip of the two prepared-point lists, a list whose
length is the minimum of the two (truncating the longer side), so the mismatch
produces no out-of-bounds access and nothing beyond the Boolean verdict. -/
theorem claim_C9_mismatch_total (B : Backend Fr G1 G2 GT ML) (pks : List G2)
    (msgs : List Bytes) (sig : G1) (pks' : List G1) (msgs' : List Bytes)
    (sig' : G2) (ciphersuite : Nat) (h : pks.length ≠ msgs.length)
    (h' : pks'.length ≠ msgs'.length) :
    ((SigG1.core B).core_aggregate_verify pks msgs sig ciphersuite =
        fe_check B (((msgs.map fun msg => B.hash_g1 msg ciphersuite) ++ [sig]).zip
          (pks ++ [-B.g2_one])) ∧
      (((msgs.map fun msg => B.hash_g1 msg ciphersuite) ++ [sig]).zip
          (pks ++ [-B.g2_one])).length =
        min (msgs.length + 1) (pks.length + 1))
    ∧ ((SigG2.core B).core_aggregate_verify pks' msgs' sig' ciphersuite =
        fe_check B ((pks' ++ [-B.g1_one]).zip
          ((msgs'.map fun msg => B.hash_g2 msg ciphersuite) ++ [sig'])) ∧
      ((pks' ++ [-B.g1_one]).zip
          ((msgs'.map fun msg => B.hash_g2 msg ciphersuite) ++ [sig'])).length =
        min (pks'.length + 1) (msgs'.length + 1)) := by
  refine ⟨⟨rfl, ?_⟩, rfl, ?_⟩ <;> simp

theorem claim_C9_witness :
    ((SigG1.core toyBackend).core_aggregate_verify [0] [] (0 : ZMod 5) 0 =
        fe_check toyBackend ((([] : List Bytes).map
            (fun msg => toyBackend.hash_g1 msg 0) ++ [(0 : ZMod 5)]).zip
          ([0] ++ [-toyBackend.g2_one])) ∧
      ((([] : List Bytes).map (fun msg => toyBackend.hash_g1 msg 0) ++
            [(0 : ZMod 5)]).zip ([0] ++ [-toyBackend.g2_one])).length =
        min (List.length ([] : List Bytes) + 1) (List.length [(0 : ZMod 5)] + 1))
    ∧ ((SigG2.core toyBackend).core_aggregate_verify [] [[1]] (0 : ZMod 5) 0 =
        fe_check toyBackend ((([] : List (ZMod 5)) ++ [-toyBackend.g1_one]).zip
          ([[1]].map (fun msg => toyBackend.hash_g2 msg 0) ++ [(0 : ZMod 5)])) ∧
      ((([] : List (ZMod 5)) ++ [-toyBackend.g1_one]).zip
          ([[1]].map (fun msg => toyBackend.hash_g2 msg 0) ++
            [(0 : ZMod 5)])).length =
        min (List.length ([] : List (ZMod 5)) + 1) (List.length [[1]] + 1)) :=
  claim_C9_mismatch_total toyBackend [0] [] 0 [] [[1]] 0 0 (by decide) (by decide)

/-- Claim C1: for every ikm, message and ciphersuite byte, with
`(sk, pk) = keygen(ikm)`, `core_verify(pk, core_sign(sk, msg, cs), msg, cs)`
returns `true`, in both the sig-in-G1 and sig-in-G2 configurations (for any
lawful pairing backend). -/
theorem claim_C1_sign_verify_correct (B : Backend Fr G1 G2 GT ML)
    (hB : LawfulBackend B) (ikm msg : Bytes) (ciphersuite : Nat) :
    ((SigG1.core B).core_verify ((SigG1.core B).keygen ikm).2
        ((SigG1.core B).core_sign ((SigG1.core B).keygen ikm).1 msg ciphersuite)
        msg ciphersuite = true)
    ∧ ((SigG2.core B).core_verify ((SigG2.core B).keygen ikm).2
        ((SigG2.core B).core_sign ((SigG2.core B).keygen ikm).1 msg ciphersuite)
        msg ciphersuite = true) :=
  ⟨core_verify_core_sign_g1 hB (B.xprime_from_sk ikm) msg ciphersuite,
   core_verify_core_sign_g2 hB (B.xprime_from_sk ikm) msg ciphersuite⟩

theorem claim_C1_witness :
    ((SigG1.core toyBackend).core_verify ((SigG1.core toyBackend).keygen [1, 2]).2
        ((SigG1.core toyBackend).core_sign
          ((SigG1.core toyBackend).keygen [1, 2]).1 [7] 3) [7] 3 = true)
    ∧ ((SigG2.core toyBackend).core_verify ((SigG2.core toyBackend).keygen [1, 2]).2
        ((SigG2.core toyBackend).core_sign
          ((SigG2.core toyBackend).keygen [1, 2]).1 [7] 3) [7] 3 = true) :=
  claim_C1_sign_verify_correct toyBackend toyBackend_lawful [1, 2] [7] 3

/-- Claim C8: for every ikm and PoP ciphersuite byte, with
`(_, pk) = keygen(ikm)`, `pop_verify(pk, pop_prove(ikm, cs_pop), cs_pop)`
returns `true` in both configurations, the serialized public key having 96
bytes when the public key is in G2 and 48 bytes when it is in G1. -/
theorem claim_C8_pop_roundtrip (B : Backend Fr G1 G2 GT ML)
    (hB : LawfulBackend B) (ikm : Bytes) (cs_pop : Nat) :
    (SigG1.pop_verify B ((SigG1.core B).keygen ikm).2
        (SigG1.pop_prove B ikm cs_pop) cs_pop = true
      ∧ (B.serialize_g2 ((SigG1.core B).keygen ikm).2).length = 96)
    ∧ (SigG2.pop_verify B ((SigG2.core B).keygen ikm).2
        (SigG2.pop_prove B ikm cs_pop) cs_pop = true
      ∧ (B.serialize_g1 ((SigG2.core B).keygen ikm).2).length = 48) :=
  ⟨⟨core_verify_core_sign_g1 hB (B.xprime_from_sk ikm) _ cs_pop,
      hB.serialize_g2_length _⟩,
   ⟨core_verify_core_sign_g2 hB (B.xprime_from_sk ikm) _ cs_pop,
      hB.serialize_g1_length _⟩⟩

theorem claim_C8_witness :
    (SigG1.pop_verify toyBackend ((SigG1.core toyBackend).keygen [1]).2
        (SigG1.pop_prove toyBackend [1] 0) 0 = true
      ∧ (toyBackend.serialize_g2 ((SigG1.core toyBackend).keygen [1]).2).length = 96)
    ∧ (SigG2.pop_verify toyBackend ((SigG2.core toyBackend).keygen [1]).2
        (SigG2.pop_prove toyBackend [1] 0) 0 = true
      ∧ (toyBackend.serialize_g1 ((SigG2.core toyBackend).keygen [1]).2).length = 48) :=
  claim_C8_pop_roundtrip toyBackend toyBackend_lawful [1] 0

/-- Claim C3: for every family of (ikm_i, msg_i) pairs and ciphersuite byte,
with `(sk_i, pk_i) = keygen(ikm_i)`, `sig_i = core_sign(sk_i, msg_i, cs)` and
`agg = aggregate(sig_1 .. sig_n)`,
`core_aggregate_verify([pk_i], [msg_i], agg, cs)` returns `true`, in both
configurations (for any lawful pairing backend). -/
theorem claim_C3_aggregate_correct (B : Backend Fr G1 G2 GT ML)
    (hB : LawfulBackend B) (ins : List (Bytes × Bytes)) (ciphersuite : Nat) :
    ((SigG1.core B).core_aggregate_verify
      (ins.map fun p => ((SigG1.core B).keygen p.1).2)
      (ins.map fun p => p.2)
      ((SigG1.core B).aggregate (ins.map fun p =>
        (SigG1.core B).core_sign ((SigG1.core B).keygen p.1).1 p.2 ciphersuite))
      ciphersuite = true)
    ∧ ((SigG2.core B).core_aggregate_verify
      (ins.map fun p => ((SigG2.core B).keygen p.1).2)
      (ins.map fun p => p.2)
      ((SigG2.core B).aggregate (ins.map fun p =>
        (SigG2.core B).core_sign ((SigG2.core B).keygen p.1).1 p.2 ciphersuite))
      ciphersuite = true) :=
  ⟨aggregate_correct_g1 hB ins ciphersuite,
   aggregate_correct_g2 hB ins ciphersuite⟩

theorem claim_C3_witness :
    ((SigG1.core toyBackend).core_aggregate_verify
      ([([1], [2]), ([3], [4])].map fun p => ((SigG1.core toyBackend).keygen p.1).2)
      ([([1], [2]), ([3], [4])].map fun p => p.2)
      ((SigG1.core toyBackend).aggregate ([([1], [2]), ([3], [4])].map fun p =>
        (SigG1.core toyBackend).core_sign
          ((SigG1.core toyBackend).keygen p.1).1 p.2 1))
      1 = true)
    ∧ ((SigG2.core toyBackend).core_aggregate_verify
      ([([1], [2]), ([3], [4])].map fun p => ((SigG2.core toyBackend).keygen p.1).2)
      ([([1], [2]), ([3], [4])].map fun p => p.2)
      ((SigG2.core toyBackend).aggregate ([([1], [2]), ([3], [4])].map fun p =>
        (SigG2.core toyBackend).core_sign
          ((SigG2.core toyBackend).keygen p.1).1 p.2 1))
      1 = true) :=
  claim_C3_aggregate_correct toyBackend toyBackend_lawful
    [([1], [2]), ([3], [4])] 1

end Claims

end BLSSigs
